import Mathlib

/-
Shallow embedding of `packages/indy-sdk/src/ledger/IndySdkPoolService.ts`.

The service resolves DIDs against an ordered list of configured Indy pools,
connects to pools at startup, routes writes by namespace, and enforces the
transaction author agreement (TAA) on the write path.  External collaborators
(the indy-sdk client, the wallet, the cache store) are modelled as explicit
parameters; the mutable `pool.authorAgreement` field is modelled as an
explicit `TaaState` value threaded through the TAA operations.
-/

deriving instance DecidableEq for Except

/-- Caller-side TAA acceptance configuration
(`IndySdkPoolConfig.transactionAuthorAgreement`). -/
structure TaaConfig where
  version : String
  acceptanceMechanism : String
deriving DecidableEq

/-- Pool configuration (`IndySdkPoolConfig`): the fields this service observes.
Opaque connection parameters (genesis transactions etc.) are never inspected
by `IndySdkPoolService` and are omitted. -/
structure IndySdkPoolConfig where
  id : String
  isProduction : Bool
  indyNamespace : Option String
  transactionAuthorAgreement : Option TaaConfig
deriving DecidableEq

/-- A configured pool (`IndySdkPool`).  Its `id` and `didIndyNamespace`
getters project the configuration. -/
structure IndySdkPool where
  config : IndySdkPoolConfig
deriving DecidableEq

/-- The `pool.id` getter of `IndySdkPool`. -/
def IndySdkPool.id (p : IndySdkPool) : String := p.config.id

/-- The `pool.didIndyNamespace` getter of `IndySdkPool`. -/
def IndySdkPool.didIndyNamespace (p : IndySdkPool) : Option String :=
  p.config.indyNamespace

/-- The parsed nym response (`GetNymResponse`).  Only the `did` and `verkey`
fields are ever read by this service. -/
structure GetNymResponse where
  did : String
  verkey : String
deriving DecidableEq

/-- The cache payload (`CachedDidResponse`). -/
structure CachedDidResponse where
  nymResponse : GetNymResponse
  poolId : String
deriving DecidableEq

/-- A successful per-pool query result (`PublicDidRequest`); the raw ledger
reply stored alongside is never read afterwards and is omitted. -/
structure PublicDidRequest where
  did : GetNymResponse
  pool : IndySdkPool
deriving DecidableEq

/-- Outcome of `getDidFromPool` for one pool: fulfilled with a parsed nym
response, rejected with `IndySdkPoolNotFoundError` (the `LedgerNotFound`
translation), or rejected with any other error (represented by an opaque
cause identifier). -/
inductive PoolQueryOutcome where
  | fulfilled (nym : GetNymResponse)
  | rejectedNotFound
  | rejectedOther (cause : Nat)
deriving DecidableEq

/-- A rejection reason as inspected by `getPoolForDid`
(`e.reason instanceof IndySdkPoolNotFoundError`). -/
inductive RejectReason where
  | notFound
  | other (cause : Nat)
deriving DecidableEq

/-- Whether a rejection reason is the not-found outcome. -/
def RejectReason.isNotFound : RejectReason → Bool
  | .notFound => true
  | .other _ => false

/-- Errors thrown by `getPoolForDid`: `IndySdkPoolNotConfiguredError`,
the `IndySdkPoolNotFoundError` naming the DID and the total pool count, and
`IndySdkPoolError` wrapping the first non-not-found rejection. -/
inductive ResolveError where
  | poolNotConfigured
  | didNotFound (did : String) (totalPools : Nat)
  | poolError (cause : RejectReason)
deriving DecidableEq

/-- Observable behaviour of one `getPoolForDid` call: its outcome, the ids of
the pools a network query was fanned out to, and the cache write it performed
(key and value), if any. -/
structure ResolveResult where
  outcome : Except ResolveError (IndySdkPool × GetNymResponse)
  queriedPools : List String
  cacheWrite : Option (String × CachedDidResponse)
deriving DecidableEq

/-- The fulfilled results of `allSettled(pools.map(pool => getDidFromPool(did, pool)))`,
in configured pool order (`onlyFulfilled` keeps settlement order, which is
the pool order). -/
def successfulResponses (net : IndySdkPool → PoolQueryOutcome)
    (pools : List IndySdkPool) : List PublicDidRequest :=
  pools.filterMap fun p =>
    match net p with
    | .fulfilled nym => some ⟨nym, p⟩
    | .rejectedNotFound => none
    | .rejectedOther _ => none

/-- The rejection reasons of the settled per-pool queries, in configured pool
order (`onlyRejected`). -/
def rejectedResponses (net : IndySdkPool → PoolQueryOutcome)
    (pools : List IndySdkPool) : List RejectReason :=
  pools.filterMap fun p =>
    match net p with
    | .fulfilled _ => none
    | .rejectedNotFound => some .notFound
    | .rejectedOther c => some (.other c)

/-- Cache consultation of `getPoolForDid`: the cached entry together with the
configured pool it refers to, i.e. `cachedNymResponse` and
`pools.find(pool => pool.id === cachedNymResponse?.poolId)`; `none` when either
is missing (the entry is then treated as a miss). -/
def cacheLookup (pools : List IndySdkPool) (cached : Option CachedDidResponse) :
    Option (IndySdkPool × CachedDidResponse) :=
  match cached with
  | none => none
  | some c => (pools.find? fun p => p.id == c.poolId).map fun p => (p, c)

/-- The preference algorithm of `getPoolForDid` over the non-empty successful
set (`s` is its head, so the `head?.getD s` fallback is never exercised):
first `successful.find(response => isSelfCertifiedDid(did, verkey))`, else the
first element of the production successes when there is at least one, else the
first non-production success.  `isSelfCertifiedDid` lives outside this file's
sources and is passed in as the predicate `selfCert`. -/
def pickValue (selfCert : String → String → Bool)
    (successful : List PublicDidRequest) (s : PublicDidRequest) : PublicDidRequest :=
  match successful.find? fun r => selfCert r.did.did r.did.verkey with
  | some v => v
  | none =>
    (if (successful.filter fun r => r.pool.config.isProduction).length ≥ 1 then
      successful.filter fun r => r.pool.config.isProduction
    else
      successful.filter fun r => !r.pool.config.isProduction).head?.getD s

/-- The network path of `getPoolForDid` (lines 89-131): settle all per-pool
queries; with no success, throw `didNotFound` when every rejection is the
not-found outcome (equivalently, the non-not-found rejections filter to the
empty list) and otherwise wrap the first non-not-found rejection; with at
least one success, pick the preferred value and write it to the cache under
`IndySdkPoolService:<did>`. -/
def resolveFromLedgers (selfCert : String → String → Bool)
    (pools : List IndySdkPool) (net : IndySdkPool → PoolQueryOutcome)
    (did : String) : ResolveResult :=
  match successfulResponses net pools with
  | [] =>
    match (rejectedResponses net pools).filter fun r => !r.isNotFound with
    | [] => ⟨.error (.didNotFound did pools.length), pools.map (·.id), none⟩
    | r :: _ => ⟨.error (.poolError r), pools.map (·.id), none⟩
  | s :: rest =>
    ⟨.ok ((pickValue selfCert (s :: rest) s).pool, (pickValue selfCert (s :: rest) s).did),
      pools.map (·.id),
      some ("IndySdkPoolService:" ++ did,
        ⟨(pickValue selfCert (s :: rest) s).did, (pickValue selfCert (s :: rest) s).pool.id⟩)⟩

/-- `getPoolForDid` (lines 67-132): fail when no pool is configured, else
short-circuit on a trusted cache hit, else resolve over the ledgers. -/
def getPoolForDid (selfCert : String → String → Bool) (pools : List IndySdkPool)
    (cached : Option CachedDidResponse) (net : IndySdkPool → PoolQueryOutcome)
    (did : String) : ResolveResult :=
  if pools.length = 0 then ⟨.error .poolNotConfigured, [], none⟩
  else
    match cacheLookup pools cached with
    | some (pool, c) => ⟨.ok (pool, c.nymResponse), [], none⟩
    | none => resolveFromLedgers selfCert pools net did

/-- Outcome of one `pool.connect()` call: a pool handle, or a rejection with
an opaque error identifier. -/
inductive ConnectOutcome where
  | ok (handle : Nat)
  | fail (err : Nat)
deriving DecidableEq

/-- `connectToPools` (lines 51-61): awaits `pool.connect()` for each pool in
registry order, one at a time, accumulating the handles.  The first component
records the ids of the pools on which `connect` was invoked; a rejected
`await` propagates, aborting the loop. -/
def connectToPools (connect : IndySdkPool → ConnectOutcome) :
    List IndySdkPool → List String × Except Nat (List Nat)
  | [] => ([], .ok [])
  | p :: ps =>
    match connect p with
    | .fail e => ([p.id], .error e)
    | .ok h =>
      match connectToPools connect ps with
      | (attempted, .ok hs) => (p.id :: attempted, .ok (h :: hs))
      | (attempted, .error e) => (p.id :: attempted, .error e)

/-- Errors thrown by `getPoolForNamespace`. -/
inductive NamespaceError where
  | notConfigured
  | notFoundForNamespace (ns : String)
deriving DecidableEq

/-- `getPoolForNamespace` (lines 152-171).  The source guard `!indyNamespace`
is true both for an absent argument and for the empty string, so both take
the deprecated first-pool branch; otherwise the first pool whose
`didIndyNamespace` strictly equals the argument is returned. -/
def getPoolForNamespace (pools : List IndySdkPool)
    (indyNamespace : Option String) : Except NamespaceError IndySdkPool :=
  match pools with
  | [] => .error .notConfigured
  | p0 :: _ =>
    match indyNamespace with
    | none => .ok p0
    | some ns =>
      if ns.isEmpty then .ok p0
      else
        match pools.find? fun p => p.didIndyNamespace == some ns with
        | some pool => .ok pool
        | none => .error (.notFoundForNamespace ns)

/-- The pool's author agreement combined with the accepted mechanisms
(`AuthorAgreement` with `acceptanceMechanisms`).  Only the key set of the
`aml` record is ever observed (the `in` test and `Object.keys`), so it is
modelled as the list of mechanism names; the unread `ratification_ts` and
`amlContext` fields are omitted. -/
structure AuthorAgreement where
  text : String
  version : String
  digest : String
  acceptanceMechanisms : List String
deriving DecidableEq

/-- The memoized `pool.authorAgreement` field: `undefined` (never fetched),
`null` (fetched, the pool has no TAA), or a fetched agreement. -/
inductive TaaState where
  | notFetched
  | absent
  | present (agreement : AuthorAgreement)
deriving DecidableEq

/-- The agreement a fetched state holds, if any. -/
def TaaState.fetchedAgreement : TaaState → Option AuthorAgreement
  | .notFetched => none
  | .absent => none
  | .present a => some a

/-- The agreement payload of the ledger's get-TAA reply
(`taaResponse.result.data`, which can be null). -/
structure TaaFields where
  text : String
  version : String
  digest : String
deriving DecidableEq

/-- What the pool would answer to the two TAA read queries: the agreement
payload (none models a null/empty payload) and the accepted mechanism
names. -/
structure TaaEnv where
  taaData : Option TaaFields
  aml : List String
deriving DecidableEq

/-- Result of `getTransactionAuthorAgreement`: the new memoized state, the
returned agreement, and how many read queries were submitted to the pool. -/
structure TaaFetchResult where
  state : TaaState
  agreement : Option AuthorAgreement
  readQueries : Nat
deriving DecidableEq

/-- `getTransactionAuthorAgreement` (lines 260-289): return the memoized
field unless it is still `undefined`; otherwise submit the two read queries,
record `null` for an empty agreement payload, and otherwise record the
agreement combined with the accepted mechanisms. -/
def getTransactionAuthorAgreement (env : TaaEnv) (st : TaaState) : TaaFetchResult :=
  match st with
  | .absent => ⟨.absent, none, 0⟩
  | .present a => ⟨.present a, some a, 0⟩
  | .notFetched =>
    match env.taaData with
    | none => ⟨.absent, none, 2⟩
    | some d => ⟨.present ⟨d.text, d.version, d.digest, env.aml⟩,
        some ⟨d.text, d.version, d.digest, env.aml⟩, 2⟩

/-- Ledger write requests as this service transforms them: the caller's
opaque request, the request with a TAA acceptance appended
(`appendTxnAuthorAgreementAcceptanceToRequest`), and a signed request
(`indySdk.signRequest`). -/
inductive LedgerRequest where
  | base (reqId : Nat)
  | withTaaAcceptance (req : LedgerRequest) (text : String) (version : String)
      (digest : String) (mechanism : String) (time : Nat)
  | signed (req : LedgerRequest) (signDid : String)
deriving DecidableEq

/-- Errors thrown by `appendTaa`: the pool has a TAA but the caller
configured none (the message embeds the agreement), or the configured
version/mechanism does not match the pool's (the message embeds the
requested mechanism and version and the pool's mechanism keys and
version). -/
inductive WriteError where
  | taaNotSpecified (agreement : AuthorAgreement)
  | taaMismatch (requestedMechanism : String) (requestedVersion : String)
      (foundMechanisms : List String) (foundVersion : String)
deriving DecidableEq

/-- Result of `appendTaa`: the new memoized TAA state, the TAA read queries
issued, and the (possibly augmented) request or the error thrown. -/
structure AppendTaaSummary where
  state : TaaState
  readQueries : Nat
  request : Except WriteError LedgerRequest
deriving DecidableEq

/-- The TAA validation of `appendTaa` (lines 220-254) for a pool that has an
agreement: fail when the caller configured no acceptance, fail with the
mismatch error when the configured version is not the pool's or the
configured mechanism is not among the pool's accepted mechanisms, and
otherwise append the acceptance built from the agreement text, the caller's
version, the agreement digest, the caller's mechanism and the current
wall-clock time in seconds (`now`). -/
def taaCheck (authorAgreement : AuthorAgreement) (taa : Option TaaConfig)
    (now : Nat) (request : LedgerRequest) : Except WriteError LedgerRequest :=
  match taa with
  | none => .error (.taaNotSpecified authorAgreement)
  | some taaCfg =>
    if authorAgreement.version != taaCfg.version
        || !(authorAgreement.acceptanceMechanisms.contains taaCfg.acceptanceMechanism) then
      .error (.taaMismatch taaCfg.acceptanceMechanism taaCfg.version
        authorAgreement.acceptanceMechanisms authorAgreement.version)
    else
      .ok (.withTaaAcceptance request authorAgreement.text taaCfg.version
        authorAgreement.digest taaCfg.acceptanceMechanism now)

/-- The request transformation of `appendTaa` given the fetched agreement:
pass the request through untouched when the pool has no TAA (lines 216-219),
else validate and append. -/
def appendTaaRequest (agreement : Option AuthorAgreement) (taa : Option TaaConfig)
    (now : Nat) (request : LedgerRequest) : Except WriteError LedgerRequest :=
  match agreement with
  | none => .ok request
  | some authorAgreement => taaCheck authorAgreement taa now request

/-- `appendTaa` (lines 211-258): fetch/memoize the TAA, then transform the
request (or fail) according to the fetched agreement. -/
def appendTaa (env : TaaEnv) (taa : Option TaaConfig) (now : Nat)
    (st : TaaState) (request : LedgerRequest) : AppendTaaSummary :=
  ⟨(getTransactionAuthorAgreement env st).state,
    (getTransactionAuthorAgreement env st).readQueries,
    appendTaaRequest (getTransactionAuthorAgreement env st).agreement taa now request⟩

/-- Observable behaviour of one `submitWriteRequest` call: the new memoized
TAA state, the TAA read queries issued, the signer DID and request passed to
the signing collaborator (none when signing was never invoked), the request
submitted to the pool (none when submission was never invoked), and the
result (the submitted signed request stands for the pool's write reply). -/
structure WriteSubmission where
  state : TaaState
  taaReadQueries : Nat
  signedRequest : Option (String × LedgerRequest)
  submittedRequest : Option LedgerRequest
  result : Except WriteError LedgerRequest
deriving DecidableEq

/-- `submitWriteRequest` (lines 173-189): append the TAA, sign the resulting
request with the signer DID, and submit the signed request; an `appendTaa`
error propagates before signing or submission happens. -/
def submitWriteRequest (env : TaaEnv) (taa : Option TaaConfig) (now : Nat)
    (st : TaaState) (request : LedgerRequest) (signDid : String) : WriteSubmission :=
  match (appendTaa env taa now st request).request with
  | .error e => ⟨(appendTaa env taa now st request).state,
      (appendTaa env taa now st request).readQueries, none, none, .error e⟩
  | .ok requestWithTaa => ⟨(appendTaa env taa now st request).state,
      (appendTaa env taa now st request).readQueries,
      some (signDid, requestWithTaa), some (.signed requestWithTaa signDid),
      .ok (.signed requestWithTaa signDid)⟩

/-- Sample pool on the non-production ledger `poolA`. -/
def samplePoolA : IndySdkPool := ⟨⟨"poolA", false, some "ns:a", none⟩⟩

/-- Sample pool on the production ledger `poolB`. -/
def samplePoolB : IndySdkPool := ⟨⟨"poolB", true, some "ns:b", none⟩⟩

/-- Sample nym response returned by `poolA`. -/
def sampleNymA : GetNymResponse := ⟨"did:indy:a", "verkeyA"⟩

/-- Sample nym response returned by `poolB`. -/
def sampleNymB : GetNymResponse := ⟨"did:indy:b", "verkeyB"⟩

/-- Sample network in which both pools answer successfully. -/
def netBothFulfilled : IndySdkPool → PoolQueryOutcome :=
  fun p => if p.id == "poolA" then .fulfilled sampleNymA else .fulfilled sampleNymB

/-- Sample network in which `poolA` reports not-found and `poolB` fails with
a transport error. -/
def netAllFailed : IndySdkPool → PoolQueryOutcome :=
  fun p => if p.id == "poolA" then .rejectedNotFound else .rejectedOther 42

/-- Sample self-certification predicate marking only `poolB`'s DID. -/
def selfCertB : String → String → Bool := fun d _ => d == "did:indy:b"

/-- Sample self-certification predicate marking nothing. -/
def selfCertNone : String → String → Bool := fun _ _ => false

/-- Sample connect function failing on `poolA` and succeeding elsewhere. -/
def failFirstConnect : IndySdkPool → ConnectOutcome :=
  fun p => if p.id == "poolA" then .fail 7 else .ok 1

/-- Sample pool whose namespace is `ns:x`. -/
def nsPoolX : IndySdkPool := ⟨⟨"poolX", true, some "ns:x", none⟩⟩

/-- Sample pool whose namespace is the empty string. -/
def nsPoolE1 : IndySdkPool := ⟨⟨"poolE1", true, some "", none⟩⟩

/-- Second sample pool whose namespace is the empty string. -/
def nsPoolE2 : IndySdkPool := ⟨⟨"poolE2", false, some "", none⟩⟩

/-- Sample TAA environment: agreement version 2.0 with the single accepted
mechanism `wallet_agreement`. -/
def sampleTaaEnv : TaaEnv := ⟨some ⟨"taa text", "2.0", "digest0"⟩, ["wallet_agreement"]⟩

/-- Helper: `find?` returns the first element satisfying the predicate. -/
theorem find?_of_prefix_false {α : Type} (p : α → Bool) (v : α) :
    ∀ (pre post : List α), (∀ u ∈ pre, p u = false) → p v = true →
      (pre ++ v :: post).find? p = some v := by
  intro pre
  induction pre with
  | nil =>
    intro post _ hv
    simpa using List.find?_cons_of_pos post hv
  | cons a l ih =>
    intro post hpre hv
    have ha : p a = false := hpre a (by simp)
    simp only [List.cons_append]
    rw [List.find?_cons_of_neg _ (by simp [ha])]
    exact ih post (fun u hu => hpre u (by simp [hu])) hv

/-- Helper: the head of a filtered list is the first element satisfying the
predicate. -/
theorem filter_head?_eq_find? {α : Type} (p : α → Bool) :
    ∀ l : List α, (l.filter p).head? = l.find? p := by
  intro l
  induction l with
  | nil => rfl
  | cons a l ih =>
    by_cases h : p a = true
    · rw [List.filter_cons_of_pos h, List.find?_cons_of_pos _ h]
      rfl
    · have h' : p a = false := by simpa using h
      rw [List.filter_cons_of_neg (by simp [h']), List.find?_cons_of_neg _ (by simp [h'])]
      exact ih

/-- Helper: a trusted cache hit takes the short-circuit branch. -/
theorem getPoolForDid_cacheHit (selfCert : String → String → Bool)
    (pools : List IndySdkPool) (cached : Option CachedDidResponse)
    (net : IndySdkPool → PoolQueryOutcome) (did : String)
    (c : CachedDidResponse) (pool : IndySdkPool)
    (hc : cached = some c)
    (hp : pools.find? (fun p => p.id == c.poolId) = some pool) :
    getPoolForDid selfCert pools cached net did = ⟨.ok (pool, c.nymResponse), [], none⟩ := by
  have hne : ¬ pools.length = 0 := by
    intro h0
    rw [List.length_eq_zero.mp h0] at hp
    simp [List.find?] at hp
  unfold getPoolForDid
  rw [if_neg hne]
  simp [cacheLookup, hc, hp]

/-- Helper: on a cache miss the network path is taken. -/
theorem getPoolForDid_network (selfCert : String → String → Bool)
    (pools : List IndySdkPool) (cached : Option CachedDidResponse)
    (net : IndySdkPool → PoolQueryOutcome) (did : String)
    (hne : ¬ pools.length = 0) (hmiss : cacheLookup pools cached = none) :
    getPoolForDid selfCert pools cached net did = resolveFromLedgers selfCert pools net did := by
  unfold getPoolForDid
  rw [if_neg hne, hmiss]

/-- Helper: the network path with at least one success. -/
theorem resolveFromLedgers_success (selfCert : String → String → Bool)
    (pools : List IndySdkPool) (net : IndySdkPool → PoolQueryOutcome) (did : String)
    (s : PublicDidRequest) (rest : List PublicDidRequest)
    (h : successfulResponses net pools = s :: rest) :
    resolveFromLedgers selfCert pools net did =
      ⟨.ok ((pickValue selfCert (s :: rest) s).pool, (pickValue selfCert (s :: rest) s).did),
        pools.map (·.id),
        some ("IndySdkPoolService:" ++ did,
          ⟨(pickValue selfCert (s :: rest) s).did, (pickValue selfCert (s :: rest) s).pool.id⟩)⟩ := by
  unfold resolveFromLedgers
  rw [h]

/-- Helper: the network path with no success. -/
theorem resolveFromLedgers_noSuccess (selfCert : String → String → Bool)
    (pools : List IndySdkPool) (net : IndySdkPool → PoolQueryOutcome) (did : String)
    (hempty : successfulResponses net pools = []) :
    resolveFromLedgers selfCert pools net did =
      (match (rejectedResponses net pools).filter (fun r => !r.isNotFound) with
        | [] => ⟨.error (.didNotFound did pools.length), pools.map (·.id), none⟩
        | r :: _ => ⟨.error (.poolError r), pools.map (·.id), none⟩) := by
  unfold resolveFromLedgers
  rw [hempty]

/-- Helper: a self-certified success is picked first. -/
theorem pickValue_selfCertified (selfCert : String → String → Bool)
    (pre post : List PublicDidRequest) (v s : PublicDidRequest)
    (hpre : ∀ u ∈ pre, selfCert u.did.did u.did.verkey = false)
    (hv : selfCert v.did.did v.did.verkey = true) :
    pickValue selfCert (pre ++ v :: post) s = v := by
  unfold pickValue
  rw [find?_of_prefix_false _ v pre post hpre hv]

/-- Helper: with no self-certified success, the first production success is
picked. -/
theorem pickValue_production (selfCert : String → String → Bool)
    (pre post : List PublicDidRequest) (v s : PublicDidRequest)
    (hnone : ((pre ++ v :: post).find? fun r => selfCert r.did.did r.did.verkey) = none)
    (hpre : ∀ u ∈ pre, u.pool.config.isProduction = false)
    (hv : v.pool.config.isProduction = true) :
    pickValue selfCert (pre ++ v :: post) s = v := by
  unfold pickValue
  rw [hnone]
  have hfind : ((pre ++ v :: post).find? fun r => r.pool.config.isProduction) = some v :=
    find?_of_prefix_false _ v pre post hpre hv
  have hhead : ((pre ++ v :: post).filter fun r => r.pool.config.isProduction).head? = some v := by
    rw [filter_head?_eq_find?]
    exact hfind
  have hlen : ((pre ++ v :: post).filter fun r => r.pool.config.isProduction).length ≥ 1 := by
    cases hfl : (pre ++ v :: post).filter fun r => r.pool.config.isProduction with
    | nil => rw [hfl] at hhead; simp at hhead
    | cons a l => simp
  rw [if_pos hlen, hhead]
  rfl

/-- Helper: with no self-certified success and no production success, the
first success is picked. -/
theorem pickValue_nonProduction (selfCert : String → String → Bool)
    (s : PublicDidRequest) (rest : List PublicDidRequest)
    (hnone : ((s :: rest).find? fun r => selfCert r.did.did r.did.verkey) = none)
    (hall : ∀ u ∈ s :: rest, u.pool.config.isProduction = false) :
    pickValue selfCert (s :: rest) s = s := by
  unfold pickValue
  rw [hnone]
  have hprod : ((s :: rest).filter fun r => r.pool.config.isProduction) = [] :=
    List.filter_eq_nil_iff.mpr (by intro a ha; simp [hall a ha])
  have hnonprod : ((s :: rest).filter fun r => !r.pool.config.isProduction) = s :: rest :=
    List.filter_eq_self.mpr (by intro a ha; simp [hall a ha])
  rw [hprod, hnonprod]
  simp

/-- Helper: the network path always queries every configured pool. -/
theorem resolveFromLedgers_queried (selfCert : String → String → Bool)
    (pools : List IndySdkPool) (net : IndySdkPool → PoolQueryOutcome) (did : String) :
    (resolveFromLedgers selfCert pools net did).queriedPools = pools.map (·.id) := by
  unfold resolveFromLedgers
  cases successfulResponses net pools with
  | nil =>
    cases (rejectedResponses net pools).filter (fun r => !r.isNotFound) with
    | nil => rfl
    | cons r t => rfl
  | cons s rest => rfl

/-- Helper: the three top-level behaviours of `getPoolForDid`. -/
theorem getPoolForDid_eq_cases (selfCert : String → String → Bool)
    (pools : List IndySdkPool) (cached : Option CachedDidResponse)
    (net : IndySdkPool → PoolQueryOutcome) (did : String) :
    getPoolForDid selfCert pools cached net did = ⟨.error .poolNotConfigured, [], none⟩
    ∨ (∃ pool c, cacheLookup pools cached = some (pool, c) ∧
        getPoolForDid selfCert pools cached net did = ⟨.ok (pool, c.nymResponse), [], none⟩)
    ∨ (¬ pools.length = 0 ∧ cacheLookup pools cached = none ∧
        getPoolForDid selfCert pools cached net did
          = resolveFromLedgers selfCert pools net did) := by
  by_cases h0 : pools.length = 0
  · left
    unfold getPoolForDid
    rw [if_pos h0]
  · cases hcl : cacheLookup pools cached with
    | some pc =>
      obtain ⟨pool, c⟩ := pc
      right; left
      refine ⟨pool, c, rfl, ?_⟩
      unfold getPoolForDid
      rw [if_neg h0, hcl]
    | none =>
      right; right
      exact ⟨h0, rfl, getPoolForDid_network selfCert pools cached net did h0 hcl⟩

/-- Helper: the two behaviours of the network path. -/
theorem resolveFromLedgers_eq_cases (selfCert : String → String → Bool)
    (pools : List IndySdkPool) (net : IndySdkPool → PoolQueryOutcome) (did : String) :
    (∃ err, resolveFromLedgers selfCert pools net did
        = ⟨.error err, pools.map (·.id), none⟩)
    ∨ (∃ s rest, successfulResponses net pools = s :: rest ∧
        resolveFromLedgers selfCert pools net did =
          ⟨.ok ((pickValue selfCert (s :: rest) s).pool, (pickValue selfCert (s :: rest) s).did),
            pools.map (·.id),
            some ("IndySdkPoolService:" ++ did,
              ⟨(pickValue selfCert (s :: rest) s).did,
                (pickValue selfCert (s :: rest) s).pool.id⟩)⟩) := by
  cases hs : successfulResponses net pools with
  | nil =>
    left
    rw [resolveFromLedgers_noSuccess selfCert pools net did hs]
    cases (rejectedResponses net pools).filter (fun r => !r.isNotFound) with
    | nil => exact ⟨.didNotFound did pools.length, rfl⟩
    | cons r t => exact ⟨.poolError r, rfl⟩
  | cons s rest =>
    right
    exact ⟨s, rest, rfl, resolveFromLedgers_success selfCert pools net did s rest hs⟩

/-- Claim C1: whenever at least one pool query succeeds and some successful
result is self-certified, `getPoolForDid` returns the first self-certified
successful result in configured pool order, regardless of the production
status or earlier position of any other result. -/
theorem getPoolForDid_first_self_certified_wins
    (selfCert : String → String → Bool) (pools : List IndySdkPool)
    (cached : Option CachedDidResponse) (net : IndySdkPool → PoolQueryOutcome)
    (did : String) (pre post : List PublicDidRequest) (v : PublicDidRequest)
    (hne : ¬ pools.length = 0)
    (hmiss : cacheLookup pools cached = none)
    (hsucc : successfulResponses net pools = pre ++ v :: post)
    (hpre : ∀ u ∈ pre, selfCert u.did.did u.did.verkey = false)
    (hv : selfCert v.did.did v.did.verkey = true) :
    (getPoolForDid selfCert pools cached net did).outcome = .ok (v.pool, v.did) := by
  rw [getPoolForDid_network selfCert pools cached net did hne hmiss]
  cases hq : pre ++ v :: post with
  | nil => simp at hq
  | cons s rest =>
    rw [hq] at hsucc
    rw [resolveFromLedgers_success selfCert pools net did s rest hsucc]
    have hpv : pickValue selfCert (s :: rest) s = v := by
      rw [← hq]
      exact pickValue_selfCertified selfCert pre post v s hpre hv
    rw [hpv]

/-- Witness for C1: pool A answers first but only pool B's record is
self-certified, so B's record wins. -/
theorem getPoolForDid_first_self_certified_wins_witness :
    (getPoolForDid selfCertB [samplePoolA, samplePoolB] none netBothFulfilled "did:x").outcome
      = .ok (samplePoolB, sampleNymB) :=
  getPoolForDid_first_self_certified_wins selfCertB [samplePoolA, samplePoolB] none
    netBothFulfilled "did:x" [⟨sampleNymA, samplePoolA⟩] [] ⟨sampleNymB, samplePoolB⟩
    (by decide) (by decide) (by decide) (by decide) (by decide)

/-- Claim C2: with at least one success and no self-certified success,
`getPoolForDid` returns the first production-pool success in configured pool
order when one exists, and otherwise the first success (all of which are then
non-production). -/
theorem getPoolForDid_production_preference
    (selfCert : String → String → Bool) (pools : List IndySdkPool)
    (cached : Option CachedDidResponse) (net : IndySdkPool → PoolQueryOutcome)
    (did : String)
    (hne : ¬ pools.length = 0)
    (hmiss : cacheLookup pools cached = none)
    (hnocert : ∀ u ∈ successfulResponses net pools, selfCert u.did.did u.did.verkey = false) :
    (∀ pre v post, successfulResponses net pools = pre ++ v :: post →
      (∀ u ∈ pre, u.pool.config.isProduction = false) →
      v.pool.config.isProduction = true →
      (getPoolForDid selfCert pools cached net did).outcome = .ok (v.pool, v.did))
    ∧ (∀ s rest, successfulResponses net pools = s :: rest →
      (∀ u ∈ s :: rest, u.pool.config.isProduction = false) →
      (getPoolForDid selfCert pools cached net did).outcome = .ok (s.pool, s.did)) := by
  have hfind : ∀ {l : List PublicDidRequest}, successfulResponses net pools = l →
      (l.find? fun r => selfCert r.did.did r.did.verkey) = none := by
    intro l hl
    apply List.find?_eq_none.mpr
    intro x hx
    rw [← hl] at hx
    simp [hnocert x hx]
  constructor
  · intro pre v post hsucc hpre hv
    rw [getPoolForDid_network selfCert pools cached net did hne hmiss]
    cases hq : pre ++ v :: post with
    | nil => simp at hq
    | cons s rest =>
      rw [hq] at hsucc
      rw [resolveFromLedgers_success selfCert pools net did s rest hsucc]
      have hpv : pickValue selfCert (s :: rest) s = v := by
        rw [← hq]
        exact pickValue_production selfCert pre post v s
          (by rw [hq]; exact hfind hsucc) hpre hv
      rw [hpv]
  · intro s rest hsucc hall
    rw [getPoolForDid_network selfCert pools cached net did hne hmiss]
    rw [resolveFromLedgers_success selfCert pools net did s rest hsucc]
    rw [pickValue_nonProduction selfCert s rest (hfind hsucc) hall]

/-- Witness for C2: pools A (non-production, first) and B (production,
second) both return non-self-certified records; B's record wins. -/
theorem getPoolForDid_production_preference_witness :
    (getPoolForDid selfCertNone [samplePoolA, samplePoolB] none netBothFulfilled "did:x").outcome
      = .ok (samplePoolB, sampleNymB) :=
  (getPoolForDid_production_preference selfCertNone [samplePoolA, samplePoolB] none
      netBothFulfilled "did:x" (by decide) (by decide) (by decide)).1
    [⟨sampleNymA, samplePoolA⟩] ⟨sampleNymB, samplePoolB⟩ []
    (by decide) (by decide) (by decide)

/-- Claim C3: with a non-empty registry, a cache miss and no successful pool
query, `getPoolForDid` fails with `didNotFound` naming the DID and the total
pool count when every failure is the not-found outcome, and otherwise with
`poolError` wrapping the first failure that was not a not-found outcome. -/
theorem getPoolForDid_all_failed
    (selfCert : String → String → Bool) (pools : List IndySdkPool)
    (cached : Option CachedDidResponse) (net : IndySdkPool → PoolQueryOutcome)
    (did : String)
    (hne : ¬ pools.length = 0)
    (hmiss : cacheLookup pools cached = none)
    (hempty : successfulResponses net pools = []) :
    ((∀ r ∈ rejectedResponses net pools, r.isNotFound = true) →
      (getPoolForDid selfCert pools cached net did).outcome
        = .error (.didNotFound did pools.length))
    ∧ (∀ pre r post, rejectedResponses net pools = pre ++ r :: post →
      (∀ u ∈ pre, u.isNotFound = true) → r.isNotFound = false →
      (getPoolForDid selfCert pools cached net did).outcome
        = .error (.poolError r)) := by
  rw [getPoolForDid_network selfCert pools cached net did hne hmiss,
    resolveFromLedgers_noSuccess selfCert pools net did hempty]
  constructor
  · intro hall
    have hfl : (rejectedResponses net pools).filter (fun r => !r.isNotFound) = [] :=
      List.filter_eq_nil_iff.mpr (by intro a ha; simp [hall a ha])
    rw [hfl]
  · intro pre r post hrej hpre hr
    have hfl : (rejectedResponses net pools).filter (fun r => !r.isNotFound)
        = r :: post.filter (fun r => !r.isNotFound) := by
      rw [hrej, List.filter_append]
      rw [List.filter_eq_nil_iff.mpr (by intro a ha; simp [hpre a ha])]
      rw [List.filter_cons_of_pos (by simp [hr])]
      rfl
    rw [hfl]

/-- Witness for C3: pool A reports not-found, pool B fails with a transport
error, so the resolution error wraps the transport failure. -/
theorem getPoolForDid_all_failed_witness :
    (getPoolForDid selfCertNone [samplePoolA, samplePoolB] none netAllFailed "did:x").outcome
      = .error (.poolError (.other 42)) :=
  (getPoolForDid_all_failed selfCertNone [samplePoolA, samplePoolB] none netAllFailed
      "did:x" (by decide) (by decide) (by decide)).2
    [.notFound] (.other 42) [] (by decide) (by decide) (by decide)

/-- Claim C4: a cache entry whose pool is still configured short-circuits
`getPoolForDid` with the cached record and that pool and no network query,
while an entry whose pool is gone is treated as a miss and the full
multi-pool query is performed. -/
theorem getPoolForDid_cache_short_circuit
    (selfCert : String → String → Bool) (pools : List IndySdkPool)
    (cached : Option CachedDidResponse) (net : IndySdkPool → PoolQueryOutcome)
    (did : String) :
    (∀ c pool, cached = some c →
      pools.find? (fun p => p.id == c.poolId) = some pool →
      (getPoolForDid selfCert pools cached net did).outcome = .ok (pool, c.nymResponse) ∧
      (getPoolForDid selfCert pools cached net did).queriedPools = [])
    ∧ (∀ c, cached = some c →
      pools.find? (fun p => p.id == c.poolId) = none →
      ¬ pools.length = 0 →
      (getPoolForDid selfCert pools cached net did).queriedPools = pools.map (·.id)) := by
  constructor
  · intro c pool hc hp
    rw [getPoolForDid_cacheHit selfCert pools cached net did c pool hc hp]
    exact ⟨rfl, rfl⟩
  · intro c hc hp hne
    have hmiss : cacheLookup pools cached = none := by
      simp [cacheLookup, hc, hp]
    rw [getPoolForDid_network selfCert pools cached net did hne hmiss]
    exact resolveFromLedgers_queried selfCert pools net did

/-- Witness for C4: the cached entry names pool A, which is configured, so
the cached record is returned and no pool is queried. -/
theorem getPoolForDid_cache_short_circuit_witness :
    (getPoolForDid selfCertNone [samplePoolA, samplePoolB]
        (some ⟨sampleNymA, "poolA"⟩) netAllFailed "did:x").outcome
      = .ok (samplePoolA, sampleNymA) ∧
    (getPoolForDid selfCertNone [samplePoolA, samplePoolB]
        (some ⟨sampleNymA, "poolA"⟩) netAllFailed "did:x").queriedPools = [] :=
  (getPoolForDid_cache_short_circuit selfCertNone [samplePoolA, samplePoolB]
      (some ⟨sampleNymA, "poolA"⟩) netAllFailed "did:x").1
    ⟨sampleNymA, "poolA"⟩ samplePoolA (by decide) (by decide)

/-- Claim C9: the DID cache is written exactly by a resolution that completed
successfully over the network: any performed write stores the freshly chosen
record under the DID's key, a trusted cache hit writes nothing, and a failed
resolution writes nothing. -/
theorem getPoolForDid_cache_write_frame
    (selfCert : String → String → Bool) (pools : List IndySdkPool)
    (cached : Option CachedDidResponse) (net : IndySdkPool → PoolQueryOutcome)
    (did : String) :
    (∀ k v, (getPoolForDid selfCert pools cached net did).cacheWrite = some (k, v) →
      k = "IndySdkPoolService:" ++ did ∧
      (getPoolForDid selfCert pools cached net did).queriedPools = pools.map (·.id) ∧
      ∃ p, (getPoolForDid selfCert pools cached net did).outcome = .ok (p, v.nymResponse)
        ∧ p.id = v.poolId)
    ∧ (∀ c pool, cached = some c →
      pools.find? (fun p => p.id == c.poolId) = some pool →
      (getPoolForDid selfCert pools cached net did).cacheWrite = none)
    ∧ (∀ e, (getPoolForDid selfCert pools cached net did).outcome = .error e →
      (getPoolForDid selfCert pools cached net did).cacheWrite = none) := by
  refine ⟨?_, ?_, ?_⟩
  · intro k v hw
    rcases getPoolForDid_eq_cases selfCert pools cached net did with
      heq | ⟨pool, c, hcl, heq⟩ | ⟨h0, hcl, heq⟩
    · rw [heq] at hw
      simp at hw
    · rw [heq] at hw
      simp at hw
    · rcases resolveFromLedgers_eq_cases selfCert pools net did with
        ⟨err, hrl⟩ | ⟨s, rest, hs, hrl⟩
      · rw [heq, hrl] at hw
        simp at hw
      · rw [heq, hrl] at hw ⊢
        simp only at hw
        obtain ⟨hk, hv⟩ := Prod.mk.injEq .. ▸ Option.some.injEq .. ▸ hw
        refine ⟨hk.symm, rfl, (pickValue selfCert (s :: rest) s).pool, ?_, ?_⟩
        · rw [← hv]
        · rw [← hv]
  · intro c pool hc hp
    rw [getPoolForDid_cacheHit selfCert pools cached net did c pool hc hp]
  · intro e he
    rcases getPoolForDid_eq_cases selfCert pools cached net did with
      heq | ⟨pool, c, hcl, heq⟩ | ⟨h0, hcl, heq⟩
    · rw [heq]
    · rw [heq]
    · rcases resolveFromLedgers_eq_cases selfCert pools net did with
        ⟨err, hrl⟩ | ⟨s, rest, hs, hrl⟩
      · rw [heq, hrl]
      · rw [heq, hrl] at he
        simp at he

/-- Witness for C9: a fresh single-pool resolution writes the chosen record
under the DID's key, with the network queried. -/
theorem getPoolForDid_cache_write_frame_witness :
    "IndySdkPoolService:did:x" = "IndySdkPoolService:" ++ "did:x" ∧
    (getPoolForDid selfCertNone [samplePoolA] none netBothFulfilled "did:x").queriedPools
      = [samplePoolA].map (·.id) ∧
    ∃ p, (getPoolForDid selfCertNone [samplePoolA] none netBothFulfilled "did:x").outcome
      = .ok (p, (⟨sampleNymA, "poolA"⟩ : CachedDidResponse).nymResponse) ∧ p.id = "poolA" :=
  (getPoolForDid_cache_write_frame selfCertNone [samplePoolA] none
      netBothFulfilled "did:x").1
    "IndySdkPoolService:did:x" ⟨sampleNymA, "poolA"⟩ (by decide)

/-- Helper: the fetch never leaves the memoized field unset. -/
theorem getTransactionAuthorAgreement_sets_state (env : TaaEnv) (st : TaaState) :
    (getTransactionAuthorAgreement env st).state ≠ TaaState.notFetched := by
  cases st with
  | notFetched =>
    cases h : env.taaData <;> simp [getTransactionAuthorAgreement, h]
  | absent => simp [getTransactionAuthorAgreement]
  | present a => simp [getTransactionAuthorAgreement]

/-- Helper: `submitWriteRequest` propagates the fetched state and query
count of `getTransactionAuthorAgreement`. -/
theorem submitWriteRequest_state_queries (env : TaaEnv) (taa : Option TaaConfig)
    (now : Nat) (st : TaaState) (request : LedgerRequest) (signDid : String) :
    (submitWriteRequest env taa now st request signDid).state
        = (getTransactionAuthorAgreement env st).state ∧
    (submitWriteRequest env taa now st request signDid).taaReadQueries
        = (getTransactionAuthorAgreement env st).readQueries := by
  unfold submitWriteRequest
  cases hr : (appendTaa env taa now st request).request with
  | error e => exact ⟨rfl, rfl⟩
  | ok requestWithTaa => exact ⟨rfl, rfl⟩

/-- Claim C6: when the pool's TAA version differs from the caller's
configured version, or the configured mechanism is not among the pool's
accepted mechanisms, `submitWriteRequest` fails with the mismatch error
reporting both the required and the configured values, and neither the
signing collaborator nor the submit operation is invoked. -/
theorem submitWriteRequest_taa_mismatch
    (env : TaaEnv) (taa : Option TaaConfig) (now : Nat) (st : TaaState)
    (request : LedgerRequest) (signDid : String) (a : AuthorAgreement) (cfg : TaaConfig)
    (hfetch : (getTransactionAuthorAgreement env st).agreement = some a)
    (hcfg : taa = some cfg)
    (hmism : (a.version != cfg.version
      || !(a.acceptanceMechanisms.contains cfg.acceptanceMechanism)) = true) :
    (submitWriteRequest env taa now st request signDid).result
        = .error (.taaMismatch cfg.acceptanceMechanism cfg.version
            a.acceptanceMechanisms a.version) ∧
    (submitWriteRequest env taa now st request signDid).signedRequest = none ∧
    (submitWriteRequest env taa now st request signDid).submittedRequest = none := by
  have hreq : (appendTaa env taa now st request).request
      = .error (.taaMismatch cfg.acceptanceMechanism cfg.version
          a.acceptanceMechanisms a.version) := by
    simp only [appendTaa]
    rw [hfetch, hcfg]
    simp only [appendTaaRequest, taaCheck]
    rw [if_pos hmism]
  unfold submitWriteRequest
  rw [hreq]
  exact ⟨rfl, rfl, rfl⟩

/-- Witness for C6: the pool requires TAA version 2.0 with mechanism
`wallet_agreement`; a caller configured with version 1.0 fails with the
mismatch error and never reaches signing or submission. -/
theorem submitWriteRequest_taa_mismatch_witness :
    (submitWriteRequest sampleTaaEnv (some ⟨"1.0", "wallet_agreement"⟩) 1000
        .notFetched (.base 1) "signer").result
      = .error (.taaMismatch "wallet_agreement" "1.0" ["wallet_agreement"] "2.0") ∧
    (submitWriteRequest sampleTaaEnv (some ⟨"1.0", "wallet_agreement"⟩) 1000
        .notFetched (.base 1) "signer").signedRequest = none ∧
    (submitWriteRequest sampleTaaEnv (some ⟨"1.0", "wallet_agreement"⟩) 1000
        .notFetched (.base 1) "signer").submittedRequest = none :=
  submitWriteRequest_taa_mismatch sampleTaaEnv (some ⟨"1.0", "wallet_agreement"⟩) 1000
    .notFetched (.base 1) "signer" ⟨"taa text", "2.0", "digest0", ["wallet_agreement"]⟩
    ⟨"1.0", "wallet_agreement"⟩ (by decide) (by decide) (by decide)

/-- Claim C7: the TAA snapshot is fetched at most once per pool: a fetched
memoized field (present or absent) is returned with zero read queries and
left unchanged, the not-yet-fetched state triggers exactly two read queries
and leaves a fetched state (absent when the agreement payload is empty), and
any write performed after a previous write issues zero TAA read queries. -/
theorem taa_snapshot_fetched_once (env : TaaEnv) :
    (∀ st, st ≠ TaaState.notFetched →
      getTransactionAuthorAgreement env st = ⟨st, st.fetchedAgreement, 0⟩)
    ∧ ((getTransactionAuthorAgreement env .notFetched).readQueries = 2
       ∧ (getTransactionAuthorAgreement env .notFetched).state ≠ TaaState.notFetched)
    ∧ (env.taaData = none →
      (getTransactionAuthorAgreement env .notFetched).state = TaaState.absent)
    ∧ (∀ taa now st request signDid env₂ taa₂ now₂ request₂ signDid₂,
      (submitWriteRequest env₂ taa₂ now₂
          (submitWriteRequest env taa now st request signDid).state
          request₂ signDid₂).taaReadQueries = 0) := by
  refine ⟨?_, ⟨?_, ?_⟩, ?_, ?_⟩
  · intro st hst
    cases st with
    | notFetched => exact absurd rfl hst
    | absent => rfl
    | present a => rfl
  · cases h : env.taaData <;> simp [getTransactionAuthorAgreement, h]
  · exact getTransactionAuthorAgreement_sets_state env .notFetched
  · intro h
    simp [getTransactionAuthorAgreement, h]
  · intro taa now st request signDid env₂ taa₂ now₂ request₂ signDid₂
    have h1 := (submitWriteRequest_state_queries env taa now st request signDid).1
    have hset := getTransactionAuthorAgreement_sets_state env st
    rw [← h1] at hset
    rw [(submitWriteRequest_state_queries env₂ taa₂ now₂
      (submitWriteRequest env taa now st request signDid).state request₂ signDid₂).2]
    cases hs : (submitWriteRequest env taa now st request signDid).state with
    | notFetched => exact absurd hs hset
    | absent => rfl
    | present a => rfl

/-- Witness for C7: a memoized absent snapshot is returned unchanged with
zero read queries. -/
theorem taa_snapshot_fetched_once_witness :
    getTransactionAuthorAgreement sampleTaaEnv TaaState.absent
      = ⟨TaaState.absent, none, 0⟩ :=
  (taa_snapshot_fetched_once sampleTaaEnv).1 TaaState.absent (by decide)

/-- Claim C8: against a pool whose TAA snapshot is absent, the caller's
request is passed to signing unmodified and the signed original request is
what gets submitted — no TAA acceptance is appended. -/
theorem submitWriteRequest_no_taa
    (env : TaaEnv) (taa : Option TaaConfig) (now : Nat) (st : TaaState)
    (request : LedgerRequest) (signDid : String)
    (habsent : (getTransactionAuthorAgreement env st).agreement = none) :
    (submitWriteRequest env taa now st request signDid).signedRequest
        = some (signDid, request) ∧
    (submitWriteRequest env taa now st request signDid).submittedRequest
        = some (.signed request signDid) ∧
    (submitWriteRequest env taa now st request signDid).result
        = .ok (.signed request signDid) := by
  have hreq : (appendTaa env taa now st request).request = .ok request := by
    simp only [appendTaa]
    rw [habsent]
    rfl
  unfold submitWriteRequest
  rw [hreq]
  exact ⟨rfl, rfl, rfl⟩

/-- Witness for C8: a pool with a memoized absent TAA snapshot signs and
submits the caller's request unmodified. -/
theorem submitWriteRequest_no_taa_witness :
    (submitWriteRequest sampleTaaEnv none 1000 TaaState.absent (.base 1) "signer").signedRequest
        = some ("signer", .base 1) ∧
    (submitWriteRequest sampleTaaEnv none 1000 TaaState.absent (.base 1) "signer").submittedRequest
        = some (.signed (.base 1) "signer") ∧
    (submitWriteRequest sampleTaaEnv none 1000 TaaState.absent (.base 1) "signer").result
        = .ok (.signed (.base 1) "signer") :=
  submitWriteRequest_no_taa sampleTaaEnv none 1000 TaaState.absent (.base 1) "signer"
    (by decide)

/-- Helper: when every pool connects, `connectToPools` attempts every pool in
registry order and returns exactly the pools' handles in registry order. -/
theorem connectToPools_all_ok (connect : IndySdkPool → ConnectOutcome) :
    ∀ (pools : List IndySdkPool) (handle : IndySdkPool → Nat),
      (∀ p ∈ pools, connect p = .ok (handle p)) →
      connectToPools connect pools = (pools.map (·.id), .ok (pools.map handle)) := by
  intro pools
  induction pools with
  | nil => exact fun handle _ => rfl
  | cons q qs ih =>
    intro handle hall
    have hq : connect q = .ok (handle q) := hall q (List.mem_cons_self q qs)
    have ihq := ih handle fun r hr => hall r (List.mem_cons_of_mem q hr)
    unfold connectToPools
    rw [hq, ihq]
    rfl

/-- Helper: a failing pool aborts `connectToPools` right after it, leaving
the later pools unattempted. -/
theorem connectToPools_abort (connect : IndySdkPool → ConnectOutcome) :
    ∀ (pre : List IndySdkPool) (p : IndySdkPool) (post : List IndySdkPool) (e : Nat),
      (∀ q ∈ pre, ∃ h, connect q = .ok h) → connect p = .fail e →
      (connectToPools connect (pre ++ p :: post)).1 = (pre ++ [p]).map (·.id) ∧
      (connectToPools connect (pre ++ p :: post)).2 = .error e := by
  intro pre
  induction pre with
  | nil =>
    intro p post e _ hp
    simp only [List.nil_append]
    unfold connectToPools
    rw [hp]
    exact ⟨rfl, rfl⟩
  | cons q qs ih =>
    intro p post e hall hp
    obtain ⟨h, hq⟩ := hall q (List.mem_cons_self q qs)
    obtain ⟨ih1, ih2⟩ := ih p post e (fun r hr => hall r (List.mem_cons_of_mem q hr)) hp
    simp only [List.cons_append]
    unfold connectToPools
    rw [hq]
    cases hc : connectToPools connect (qs ++ p :: post) with
    | mk att res =>
      rw [hc] at ih1 ih2
      cases res with
      | ok hs2 => exact absurd ih2 (by simp)
      | error e2 =>
        have he : e2 = e := by simpa using ih2
        subst he
        refine ⟨?_, rfl⟩
        simp only [List.cons_append, List.map_cons]
        rw [← ih1]

/-- Counterexample to C5 as stated: with two configured pools where the first
fails to connect, `connectToPools` never attempts the second pool and rejects
— a connection failure on one pool does prevent attempting the rest. -/
theorem connectToPools_abort_counterexample :
    (connectToPools failFirstConnect [samplePoolA, samplePoolB]).1 = ["poolA"] ∧
    samplePoolB.id ∉ (connectToPools failFirstConnect [samplePoolA, samplePoolB]).1 ∧
    (connectToPools failFirstConnect [samplePoolA, samplePoolB]).2 = .error 7 := by
  decide

/-- Claim C5 (amended): `connectToPools` establishes connections in registry
order, one at a time — when every pool connects, every pool is attempted in
registry order and the pools' handles are returned in that same order — but
a connection failure on one pool aborts the sequence: the failing pool is
the last one attempted and the call rejects with that pool's error, so the
remaining pools are not attempted. -/
theorem connectToPools_order_abort_on_failure (connect : IndySdkPool → ConnectOutcome) :
    (∀ (pools : List IndySdkPool) (handle : IndySdkPool → Nat),
      (∀ p ∈ pools, connect p = .ok (handle p)) →
      connectToPools connect pools = (pools.map (·.id), .ok (pools.map handle)))
    ∧ (∀ (pre : List IndySdkPool) (p : IndySdkPool) (post : List IndySdkPool) (e : Nat),
      (∀ q ∈ pre, ∃ h, connect q = .ok h) → connect p = .fail e →
      (connectToPools connect (pre ++ p :: post)).1 = (pre ++ [p]).map (·.id) ∧
      (connectToPools connect (pre ++ p :: post)).2 = .error e) :=
  ⟨connectToPools_all_ok connect, connectToPools_abort connect⟩

/-- Witness for the amended C5: pool B connects, pool A then fails, and the
trailing pool B copy is never attempted. -/
theorem connectToPools_order_abort_on_failure_witness :
    (connectToPools failFirstConnect [samplePoolB, samplePoolA, samplePoolB]).1
        = ([samplePoolB] ++ [samplePoolA]).map (·.id) ∧
    (connectToPools failFirstConnect [samplePoolB, samplePoolA, samplePoolB]).2
        = .error 7 :=
  (connectToPools_order_abort_on_failure failFirstConnect).2 [samplePoolB] samplePoolA
    [samplePoolB] 7 (fun q hq => ⟨1, by simp at hq; rw [hq]; rfl⟩) (by decide)

/-- Counterexample to C10 as stated: the namespace `""` is carried by both
`nsPoolE1` and `nsPoolE2` (two matching pools), yet `getPoolForNamespace`
returns `nsPoolX` — the first configured pool, whose namespace is `ns:x` and
does not match — because the source's falsy guard treats the empty string
like an absent namespace. -/
theorem getPoolForNamespace_empty_counterexample :
    nsPoolE1.didIndyNamespace = some "" ∧
    nsPoolE2.didIndyNamespace = some "" ∧
    getPoolForNamespace [nsPoolX, nsPoolE1, nsPoolE2] (some "") = .ok nsPoolX ∧
    nsPoolX ≠ nsPoolE1 ∧
    nsPoolX.didIndyNamespace ≠ some "" := by
  decide

/-- Claim C10 (amended): for a non-empty given namespace,
`getPoolForNamespace` returns the first configured pool whose namespace
matches, so later pools with the same namespace are never returned; a given
empty-string namespace is treated like an absent one and yields the first
configured pool regardless of matches. -/
theorem getPoolForNamespace_first_match (pools : List IndySdkPool) (ns : String) :
    (ns ≠ "" → ∀ pre v post, pools = pre ++ v :: post →
      (∀ u ∈ pre, u.didIndyNamespace ≠ some ns) →
      v.didIndyNamespace = some ns →
      getPoolForNamespace pools (some ns) = .ok v)
    ∧ (∀ p0 rest, pools = p0 :: rest → getPoolForNamespace pools (some "") = .ok p0) := by
  constructor
  · intro hns pre v post hp hpre hv
    subst hp
    have hempty : ns.isEmpty = false := by
      cases he : ns.isEmpty
      · rfl
      · exact absurd ((String.isEmpty_iff ns).mp he) hns
    have hfind : ((pre ++ v :: post).find? fun p => p.didIndyNamespace == some ns) = some v := by
      apply find?_of_prefix_false
      · intro u hu
        exact beq_eq_false_iff_ne.mpr (hpre u hu)
      · exact beq_iff_eq.mpr hv
    cases hq : pre ++ v :: post with
    | nil => simp at hq
    | cons s rest =>
      rw [hq] at hfind
      unfold getPoolForNamespace
      simp [hempty, hfind]
  · intro p0 rest hp
    subst hp
    rfl

/-- Witness for the amended C10: the namespace `ns:b` is not pool A's, so the
lookup returns pool B, the first (and only) match. -/
theorem getPoolForNamespace_first_match_witness :
    getPoolForNamespace [samplePoolA, samplePoolB] (some "ns:b") = .ok samplePoolB :=
  (getPoolForNamespace_first_match [samplePoolA, samplePoolB] "ns:b").1
    (by decide) [samplePoolA] samplePoolB [] (by decide) (by decide) (by decide)
